import Mathlib

/-!
# Product dashboard data pipeline: a shallow embedding

This file embeds the client-side data pipeline of the product dashboard
(`src/main.js`): the search filter, the sort controller, the pagination
controller, and the dashboard controller that composes them, together with
theorems about the filtering / sorting / pagination behaviour.

Modelling conventions:
* A JS array argument that may be absent or not an array is modelled as
  `Option (List Product)`; `none` stands for any absent / non-array value.
* JS numbers that the pipeline only ever treats as integers (prices, page
  numbers, sizes, counts) are modelled as `Int` / `Nat`.
* A product's `title` and `price` may be absent (`Option`); the JS falsy
  test `!product.title` is true exactly when the title is absent or the
  empty string, which the embedding reproduces.
* `Array.prototype.sort(cmp)` is a stable sort (ECMAScript 2019); it is
  modelled by the stable insertion sort `stableSort` below, ordering by
  `le a b := cmp a b ≤ 0`.
* `String.prototype.localeCompare` is modelled as code-point lexicographic
  comparison (`cmpList` on the character lists); the default-locale
  collation is implementation defined, and the claims only use that it is
  a fixed total comparison with `cmp a b = swap (cmp b a)`.
* `String.prototype.toLowerCase` is modelled as per-character lowercasing
  with `Char.toLower` (ASCII case mapping).
-/

/-- A catalog product.  The pipeline in `src/main.js` reads only `title` and
`price` (both of which may be absent in the API data); `id` carries the
identity of a product so that distinct products with equal titles or prices
can be told apart.  The remaining fields of the API shape (description,
category, images) are never read by the filter/sort/paginate logic and are
omitted. -/
structure Product where
  id : Nat
  title : Option String
  price : Option Int
deriving DecidableEq, Repr

/-- JS `s.toLowerCase()`: per-character lowercasing. -/
def jsToLower (s : String) : String :=
  ⟨s.data.map Char.toLower⟩

/-- JS `hay.includes(needle)`: `needle` occurs as a contiguous substring of
`hay` (in particular every string includes the empty string). -/
def strContains (hay needle : String) : Bool :=
  (List.range (hay.data.length + 1)).any fun i =>
    decide ((hay.data.drop i).take needle.data.length = needle.data)

/-- JS `product.title || ''`: the title, defaulting to the empty string when
absent. -/
def titleOrEmpty (p : Product) : String :=
  p.title.getD ""

/-- JS `product.price || 0`: the price, defaulting to `0` when absent. -/
def jsPrice (p : Product) : Int :=
  p.price.getD 0

/-- One step of a stable insertion sort: insert `x` (which originally came
before every element of the list) in front of the first element `y` with
`le x y`; in particular `x` stays in front of every element tied with it. -/
def insertLe {α : Type*} (le : α → α → Bool) (x : α) : List α → List α
  | [] => [x]
  | y :: ys => if le x y then x :: y :: ys else y :: insertLe le x ys

/-- Stable sort, modelling `Array.prototype.sort(cmp)` (which ECMAScript
2019 requires to be stable) with `le a b := cmp a b ≤ 0`: for a consistent
comparator, sortedness plus stability determines the output uniquely, so any
conforming implementation agrees with this one. -/
def stableSort {α : Type*} (le : α → α → Bool) : List α → List α
  | [] => []
  | x :: xs => insertLe le x (stableSort le xs)

/-- Three-way comparison on `Nat`, the base case of the string comparison
model. -/
def cmpNat (m n : Nat) : Ordering :=
  if m < n then .lt else if n < m then .gt else .eq

/-- Lexicographic three-way comparison of character lists by code point. -/
def cmpList : List Char → List Char → Ordering
  | [], [] => .eq
  | [], _ :: _ => .lt
  | _ :: _, [] => .gt
  | a :: as, b :: bs =>
    match cmpNat a.toNat b.toNat with
    | .eq => cmpList as bs
    | o => o

/-- Model of JS `a.localeCompare(b)` (only its sign is ever used by the
code): a fixed total three-way comparison of strings, taken to be code-point
lexicographic comparison.  The actual default-locale collation is
implementation defined; the claims rely only on it being a fixed total
comparison satisfying `localeCompare a b = (localeCompare b a).swap`. -/
def localeCompare (a b : String) : Ordering :=
  cmpList a.data b.data

namespace SearchFilter

/-- `SearchFilter.filter(products, term)` from `src/main.js`:
absent / non-array input gives `[]`; an empty term returns the collection
unchanged; otherwise keep the products whose lowercased title includes the
lowercased term, where a falsy title (absent or empty) is rejected first. -/
def filter (products : Option (List Product)) (term : String) : List Product :=
  match products with
  | none => []
  | some ps =>
    if term = "" then ps
    else
      let searchTermLower := jsToLower term
      ps.filter fun product =>
        match product.title with
        | none => false
        | some t =>
          if t = "" then false
          else strContains (jsToLower t) searchTermLower

end SearchFilter

/-- The matching predicate in the words of the specification: the product
has a title, and the case-folded title contains the case-folded term as a
substring. -/
def titleMatches (term : String) (p : Product) : Bool :=
  match p.title with
  | none => false
  | some t => strContains (jsToLower t) (jsToLower term)

namespace SortController

/-- The sort field of `SortController.currentSort.field`; its only values in
the program are `'price'` and `'title'` (set by the two UI buttons), or
`null` (initially and after `clearSort`). -/
inductive SortField
  | price
  | title
deriving DecidableEq, Repr

/-- `SortController.currentSort`: the sort field (absent initially and after
`clearSort`) and the direction string (`'asc'` or `'desc'`). -/
structure SortState where
  field : Option SortField
  direction : String
deriving DecidableEq, Repr

/-- The comparator of `sortByPrice`: `(a.price || 0) - (b.price || 0)` for
`'asc'`, the mirrored difference otherwise. -/
def priceCompare (direction : String) (a b : Product) : Int :=
  let priceA := jsPrice a
  let priceB := jsPrice b
  if direction = "asc" then priceA - priceB else priceB - priceA

/-- `SortController.sortByPrice`: absent / non-array input gives `[]`,
otherwise a stable sort by the price comparator. -/
def sortByPrice (products : Option (List Product)) (direction : String) :
    List Product :=
  match products with
  | none => []
  | some ps => stableSort (fun a b => decide (priceCompare direction a b ≤ 0)) ps

/-- The comparator of `sortByName`: `localeCompare` of the lowercased
titles (`(title || '').toLowerCase()`), with the arguments mirrored for the
non-`'asc'` direction. -/
def nameCompare (direction : String) (a b : Product) : Ordering :=
  let titleA := jsToLower (titleOrEmpty a)
  let titleB := jsToLower (titleOrEmpty b)
  if direction = "asc" then localeCompare titleA titleB
  else localeCompare titleB titleA

/-- `SortController.sortByName`: absent / non-array input gives `[]`,
otherwise a stable sort by the name comparator. -/
def sortByName (products : Option (List Product)) (direction : String) :
    List Product :=
  match products with
  | none => []
  | some ps => stableSort (fun a b => decide (nameCompare direction a b ≠ .gt)) ps

/-- `SortController.toggleSort(field)`: the same field flips the direction;
a different field is selected with direction reset to `'asc'`. -/
def toggleSort (f : SortField) (s : SortState) : SortState :=
  if s.field = some f then
    { s with direction := if s.direction = "asc" then "desc" else "asc" }
  else
    { field := some f, direction := "asc" }

/-- `SortController.clearSort()`: back to the unsorted state. -/
def clearSort (_ : SortState) : SortState :=
  { field := none, direction := "asc" }

/-- `SortController.applySorting(products)`: with no sort field the input is
returned unchanged (whatever it is); otherwise dispatch to the matching
sort, which always produces an array. -/
def applySorting (sort : SortState) (products : Option (List Product)) :
    Option (List Product) :=
  match sort.field with
  | none => products
  | some .price => some (sortByPrice products sort.direction)
  | some .title => some (sortByName products sort.direction)

end SortController

namespace PaginationController

/-- The pagination state fields of `PaginationController`. -/
structure PageState where
  currentPage : Nat
  pageSize : Nat
  totalItems : Nat
  totalPages : Nat
deriving DecidableEq, Repr

/-- The initial pagination state set up by the constructor. -/
def initialPageState : PageState :=
  { currentPage := 1, pageSize := 10, totalItems := 0, totalPages := 0 }

/-- `Math.ceil(a / b)` for natural `a` and positive `b` (the page size is
always one of 5, 10, 20 in the program, 10 initially). -/
def ceilDiv (a b : Nat) : Nat :=
  (a + b - 1) / b

/-- `PaginationController.getPagedData(data)`: absent / non-array input
gives `[]` and leaves the state untouched; otherwise recompute
`totalItems` and `totalPages`, clamp `currentPage` (down to `totalPages`
only when `totalPages > 0`, then up to 1), and return the slice
`[(currentPage-1)*pageSize, currentPage*pageSize)`. -/
def getPagedData (data : Option (List Product)) (st : PageState) :
    List Product × PageState :=
  match data with
  | none => ([], st)
  | some l =>
    let totalItems := l.length
    let totalPages := ceilDiv totalItems st.pageSize
    let cp₁ := if totalPages < st.currentPage ∧ 0 < totalPages
      then totalPages else st.currentPage
    let cp₂ := if cp₁ < 1 then 1 else cp₁
    let startIndex := (cp₂ - 1) * st.pageSize
    ((l.drop startIndex).take st.pageSize,
      { currentPage := cp₂, pageSize := st.pageSize,
        totalItems := totalItems, totalPages := totalPages })

/-- `PaginationController.goToPage(page)`: no-op outside `[1, totalPages]`;
otherwise set `currentPage` and fire the page-change callback (the returned
Bool records whether the callback fired). -/
def goToPage (page : Nat) (st : PageState) : PageState × Bool :=
  if page < 1 ∨ st.totalPages < page then (st, false)
  else ({ st with currentPage := page }, true)

/-- `PaginationController.changePageSize(size)`: no-op unless the size is
one of 5, 10, 20; otherwise set `pageSize`, reset `currentPage` to 1 and
fire the page-size-change callback (the returned Bool records whether the
callback fired). -/
def changePageSize (size : Nat) (st : PageState) : PageState × Bool :=
  if size = 5 ∨ size = 10 ∨ size = 20 then
    ({ st with pageSize := size, currentPage := 1 }, true)
  else (st, false)

end PaginationController

namespace DashboardController

open SortController PaginationController

/-- The state owned by `DashboardController` (plus the states of the
components it coordinates). -/
structure DashState where
  products : List Product
  filteredProducts : List Product
  currentPageProducts : List Product
  searchTerm : String
  sortState : SortState
  pageState : PageState
deriving DecidableEq, Repr

/-- `DashboardController.updateDisplay()`: slice the stored filtered/sorted
collection for the current page (updating the pagination state) and publish
it as the visible page. -/
def updateDisplay (s : DashState) : DashState :=
  let r := getPagedData (some s.filteredProducts) s.pageState
  { s with currentPageProducts := r.1, pageState := r.2 }

/-- `DashboardController.applyFilters()`: recompute the filtered collection
from the raw products and the search term (the filter is only invoked for a
truthy term), apply the current sorting, store the result, and update the
display. -/
def applyFilters (s : DashState) : DashState :=
  let filtered := s.products
  let filtered := if s.searchTerm = "" then filtered
    else SearchFilter.filter (some filtered) s.searchTerm
  let filtered := (applySorting s.sortState (some filtered)).getD []
  updateDisplay { s with filteredProducts := filtered }

/-- The UI events wired up in `initializeComponents` and the component
constructors. -/
inductive Event
  | searchInput (text : String)
  | sortToggle (f : SortField)
  | pageSelect (n : Nat)
  | pageSizeSelect (n : Nat)

/-- The event routing of `src/main.js`: a search input stores the trimmed
term and triggers `applyFilters`; a sort toggle updates the sort state and
triggers `applyFilters`; a page selection goes through `goToPage`, whose
callback (fired only for a valid page) triggers `updateDisplay` alone; a
page-size selection goes through `changePageSize`, whose callback (fired
only for a valid size) triggers `applyFilters`. -/
def handleEvent (s : DashState) : Event → DashState
  | .searchInput text => applyFilters { s with searchTerm := text.trim }
  | .sortToggle f => applyFilters { s with sortState := toggleSort f s.sortState }
  | .pageSelect n =>
    let r := goToPage n s.pageState
    let s' := { s with pageState := r.1 }
    if r.2 then updateDisplay s' else s'
  | .pageSizeSelect n =>
    let r := changePageSize n s.pageState
    let s' := { s with pageState := r.1 }
    if r.2 then applyFilters s' else s'

end DashboardController

open SortController PaginationController DashboardController

/-! ## Concrete fixtures used by witnesses and counterexamples -/

/-- A product whose title contains "Shirt". -/
def prodA : Product := { id := 0, title := some "Shirt", price := some 30 }

/-- A product whose title is `prodA`'s with the letter cases flipped. -/
def prodB : Product := { id := 1, title := some "sHIRT", price := some 10 }

/-- A product with no title and no price. -/
def prodC : Product := { id := 2, title := none, price := none }

/-- A product sharing its price with `prodB`. -/
def prodD : Product := { id := 3, title := some "Mug", price := some 10 }

/-- A 23-item catalog, the worked pagination example of the specification. -/
def catalog23 : List Product :=
  (List.range 23).map fun i => { id := i, title := none, price := some i }

/-- A pagination state on page 1 with page size 10. -/
def pageOneState : PageState :=
  { currentPage := 1, pageSize := 10, totalItems := 0, totalPages := 0 }

/-- A pagination state on page 3 with page size 10. -/
def pageThreeState : PageState :=
  { currentPage := 3, pageSize := 10, totalItems := 0, totalPages := 0 }

/-- A pagination state whose current page (5) is stale: larger than the page
count of an empty collection. -/
def stalePageState : PageState :=
  { currentPage := 5, pageSize := 10, totalItems := 0, totalPages := 0 }

/-- A pagination state that currently shows two total pages. -/
def twoPageState : PageState :=
  { currentPage := 1, pageSize := 10, totalItems := 17, totalPages := 2 }

/-- A freshly constructed dashboard holding three fetched products. -/
def dash0 : DashState :=
  { products := [prodA, prodB, prodC], filteredProducts := [],
    currentPageProducts := [], searchTerm := "",
    sortState := { field := none, direction := "asc" },
    pageState := initialPageState }

/-- The dashboard after its initial `applyFilters` run. -/
def dash1 : DashState := applyFilters dash0

/-- The dashboard `dash1` with a price sort selected. -/
def dashSorted : DashState :=
  applyFilters { dash1 with sortState := { field := some SortField.price, direction := "asc" } }

/-! ## Helper lemmas: the stable sort -/

theorem insertLe_perm {α : Type*} (le : α → α → Bool) (x : α) :
    ∀ l : List α, (insertLe le x l).Perm (x :: l)
  | [] => List.Perm.refl _
  | y :: ys => by
    rw [insertLe]
    split
    · exact List.Perm.refl _
    · exact ((insertLe_perm le x ys).cons y).trans (List.Perm.swap x y ys)

theorem stableSort_perm {α : Type*} (le : α → α → Bool) :
    ∀ l : List α, (stableSort le l).Perm l
  | [] => List.Perm.refl _
  | x :: xs =>
    (insertLe_perm le x (stableSort le xs)).trans ((stableSort_perm le xs).cons x)

theorem length_stableSort {α : Type*} (le : α → α → Bool) (l : List α) :
    (stableSort le l).length = l.length :=
  (stableSort_perm le l).length_eq

theorem mem_insertLe {α : Type*} {le : α → α → Bool} {x z : α} {l : List α} :
    z ∈ insertLe le x l ↔ z = x ∨ z ∈ l := by
  rw [(insertLe_perm le x l).mem_iff, List.mem_cons]

theorem sorted_insertLe {α : Type*} {le : α → α → Bool}
    (trans : ∀ a b c, le a b = true → le b c = true → le a c = true)
    (total : ∀ a b, le a b = true ∨ le b a = true) (x : α) :
    ∀ l : List α, l.Pairwise (fun a b => le a b = true) →
      (insertLe le x l).Pairwise (fun a b => le a b = true)
  | [], _ => List.pairwise_singleton _ x
  | y :: ys, h => by
    rw [insertLe]
    rcases List.pairwise_cons.mp h with ⟨hy, hys⟩
    by_cases hxy : le x y = true
    · rw [if_pos hxy]
      refine List.pairwise_cons.mpr ⟨?_, h⟩
      intro z hz
      rcases List.mem_cons.mp hz with rfl | hz
      · exact hxy
      · exact trans x y z hxy (hy z hz)
    · rw [if_neg hxy]
      have hyx : le y x = true := (total x y).resolve_left hxy
      refine List.pairwise_cons.mpr ⟨?_, sorted_insertLe trans total x ys hys⟩
      intro z hz
      rcases mem_insertLe.mp hz with rfl | hz
      · exact hyx
      · exact hy z hz

theorem sorted_stableSort {α : Type*} {le : α → α → Bool}
    (trans : ∀ a b c, le a b = true → le b c = true → le a c = true)
    (total : ∀ a b, le a b = true ∨ le b a = true) :
    ∀ l : List α, (stableSort le l).Pairwise (fun a b => le a b = true)
  | [] => List.Pairwise.nil
  | x :: xs =>
    sorted_insertLe trans total x (stableSort le xs)
      (sorted_stableSort trans total xs)

theorem filter_insertLe {α : Type*} (le : α → α → Bool) (p : α → Bool) (x : α)
    (hx : p x = true → ∀ y, p y = true → le x y = true) :
    ∀ l : List α,
      (insertLe le x l).filter p = if p x then x :: l.filter p else l.filter p
  | [] => by
    rw [insertLe, List.filter_nil, List.filter_cons, List.filter_nil]
  | y :: ys => by
    rw [insertLe]
    by_cases hxy : le x y = true
    · rw [if_pos hxy, List.filter_cons]
    · rw [if_neg hxy, List.filter_cons, filter_insertLe le p x hx ys,
        List.filter_cons]
      by_cases hpx : p x = true
      · have hpy : p y = false := by
          cases h : p y
          · rfl
          · exact absurd (hx hpx y h) hxy
        simp [hpx, hpy]
      · simp [hpx]

theorem filter_stableSort {α : Type*} (le : α → α → Bool) (p : α → Bool)
    (hp : ∀ x y, p x = true → p y = true → le x y = true) :
    ∀ l : List α, (stableSort le l).filter p = l.filter p
  | [] => rfl
  | x :: xs => by
    rw [stableSort, filter_insertLe le p x (fun hx y hy => hp x y hx hy),
      filter_stableSort le p hp xs, List.filter_cons]

/-! ## Helper lemmas: the string comparison model -/

theorem cmpNat_refl (n : Nat) : cmpNat n n = .eq := by
  simp [cmpNat]

theorem cmpNat_swap (m n : Nat) : cmpNat m n = (cmpNat n m).swap := by
  rcases Nat.lt_trichotomy m n with h | h | h
  · rw [cmpNat, if_pos h, cmpNat, if_neg (Nat.lt_asymm h), if_pos h]
    rfl
  · rw [h, cmpNat_refl]
    rfl
  · rw [cmpNat, if_neg (Nat.lt_asymm h), if_pos h, cmpNat, if_pos h]
    rfl

theorem cmpList_refl : ∀ l : List Char, cmpList l l = .eq
  | [] => rfl
  | a :: as => by
    rw [cmpList, cmpNat_refl]
    exact cmpList_refl as

theorem cmpList_swap : ∀ as bs : List Char, cmpList as bs = (cmpList bs as).swap
  | [], [] => rfl
  | [], _ :: _ => rfl
  | _ :: _, [] => rfl
  | a :: as, b :: bs => by
    rw [cmpList, cmpList, cmpNat_swap a.toNat b.toNat]
    cases cmpNat b.toNat a.toNat
    · rfl
    · exact cmpList_swap as bs
    · rfl

theorem localeCompare_refl (a : String) : localeCompare a a = .eq :=
  cmpList_refl a.data

theorem localeCompare_swap (a b : String) :
    localeCompare a b = (localeCompare b a).swap :=
  cmpList_swap a.data b.data

/-! ## Helper lemmas: strings and the filter -/

theorem jsToLower_data (s : String) :
    (jsToLower s).data = s.data.map Char.toLower := rfl

theorem eq_empty_of_data_eq_nil : ∀ {s : String}, s.data = [] → s = ""
  | ⟨[]⟩, _ => rfl
  | ⟨_ :: _⟩, h => by simp at h

theorem jsToLower_data_ne_nil {s : String} (h : s ≠ "") :
    (jsToLower s).data ≠ [] := by
  rw [jsToLower_data]
  intro hc
  exact h (eq_empty_of_data_eq_nil (List.map_eq_nil_iff.mp hc))

theorem strContains_empty_hay {needle : String} (h : needle.data ≠ []) :
    strContains "" needle = false := by
  have h0 : ("" : String).data = [] := rfl
  have hr : List.range (([] : List Char).length + 1) = [0] := rfl
  rw [strContains, h0, hr]
  simp only [List.any_cons, List.any_nil, Bool.or_false, List.drop_nil,
    List.take_nil, decide_eq_false_iff_not]
  exact fun hc => h hc.symm

/-! ## Claim C3: the search filter -/

/-- Claim C3: `filter(products, term)` with an empty term returns the
collection unchanged (same elements, same order); with a non-empty term it
returns exactly the products whose case-folded title contains the
case-folded term as a substring (products missing a title are excluded),
preserving the original relative order — `List.filter` keeps the retained
elements in their original order. -/
theorem claim_C3_filter_spec (ps : List Product) (term : String) :
    SearchFilter.filter (some ps) term =
      if term = "" then ps else ps.filter (titleMatches term) := by
  by_cases h : term = ""
  · simp [SearchFilter.filter, h]
  · rw [if_neg h]
    show (if term = "" then ps else ps.filter fun product =>
      match product.title with
      | none => false
      | some t =>
        if t = "" then false
        else strContains (jsToLower t) (jsToLower term)) = _
    rw [if_neg h]
    refine List.filter_congr fun p _ => ?_
    cases hpt : p.title with
    | none => simp [titleMatches, hpt]
    | some t =>
      by_cases ht : t = ""
      · subst ht
        have hsc : strContains (jsToLower "") (jsToLower term) = false :=
          strContains_empty_hay (jsToLower_data_ne_nil h)
        simp [titleMatches, hpt, hsc]
      · simp [titleMatches, hpt, ht]

/-! ## Claim C7: page navigation and page size -/

/-- Claim C7: `goToPage(n)` with `n` outside `[1, totalPages]` is a no-op
that fires no page-change event, and otherwise sets `currentPage = n`;
`changePageSize(size)` with a size other than 5, 10, 20 is a no-op, and
with a valid size sets `pageSize` and always resets `currentPage` to 1. -/
theorem claim_C7_page_navigation (st : PageState) (n size : Nat) :
    ((n < 1 ∨ st.totalPages < n) → goToPage n st = (st, false))
    ∧ (1 ≤ n → n ≤ st.totalPages →
        goToPage n st = ({ st with currentPage := n }, true))
    ∧ (¬(size = 5 ∨ size = 10 ∨ size = 20) → changePageSize size st = (st, false))
    ∧ ((size = 5 ∨ size = 10 ∨ size = 20) →
        changePageSize size st = ({ st with pageSize := size, currentPage := 1 }, true)) := by
  refine ⟨fun h => ?_, fun h1 h2 => ?_, fun h => ?_, fun h => ?_⟩
  · rw [goToPage, if_pos h]
  · rw [goToPage, if_neg (by omega)]
  · rw [changePageSize, if_neg h]
  · rw [changePageSize, if_pos h]

/-- Witness for claim C7, on a state with two pages: page 0 and page 3 are
rejected without an event, page 2 is accepted, size 7 is rejected, size 5
is accepted and resets the page to 1. -/
theorem claim_C7_witness :
    goToPage 0 twoPageState = (twoPageState, false)
    ∧ goToPage 3 twoPageState = (twoPageState, false)
    ∧ goToPage 2 twoPageState = ({ twoPageState with currentPage := 2 }, true)
    ∧ changePageSize 7 twoPageState = (twoPageState, false)
    ∧ changePageSize 5 twoPageState
        = ({ twoPageState with pageSize := 5, currentPage := 1 }, true) :=
  ⟨(claim_C7_page_navigation twoPageState 0 7).1 (by decide),
   (claim_C7_page_navigation twoPageState 3 7).1 (by decide),
   (claim_C7_page_navigation twoPageState 2 7).2.1 (by decide) (by decide),
   (claim_C7_page_navigation twoPageState 0 7).2.2.1 (by decide),
   (claim_C7_page_navigation twoPageState 0 5).2.2.2 (by decide)⟩

/-! ## Claim C8 (corrected): defensive degradation to an empty result -/

/-- Counterexample to claim C8 as stated: `applySorting` with no sort field
hands an absent (non-array) collection back unchanged instead of returning
an empty result. -/
theorem claim_C8_counterexample :
    applySorting { field := none, direction := "asc" } none = none
    ∧ (none : Option (List Product)) ≠ some [] :=
  ⟨rfl, by decide⟩

/-- Claim C8 as amended: `filter`, `sortByPrice`, `sortByName` and
`getPagedData` all degrade an absent / non-array collection to an empty
result; `applySorting` does so whenever a sort field is set (it dispatches
to a guarded sort), but with no sort field it returns the absent input
unchanged. -/
theorem claim_C8_defensive (term direction : String) (st : PageState)
    (sort : SortState) :
    SearchFilter.filter none term = []
    ∧ sortByPrice none direction = []
    ∧ sortByName none direction = []
    ∧ getPagedData none st = ([], st)
    ∧ (sort.field ≠ none → applySorting sort none = some [])
    ∧ applySorting { field := none, direction := direction } none = none := by
  refine ⟨rfl, rfl, rfl, rfl, fun h => ?_, rfl⟩
  rcases hs : sort.field with _ | f
  · exact absurd hs h
  · cases f
    · simp [applySorting, hs, sortByPrice]
    · simp [applySorting, hs, sortByName]

/-- Witness for the amended claim C8: with a price sort selected,
`applySorting` turns an absent collection into the empty array. -/
theorem claim_C8_witness :
    applySorting { field := some SortField.price, direction := "asc" } none
      = some [] :=
  (claim_C8_defensive "x" "asc" initialPageState
    { field := some SortField.price, direction := "asc" }).2.2.2.2.1 (by decide)

/-! ## Claim C2 (corrected): the pagination clamp invariant -/

/-- Counterexample to claim C2 as stated: on the empty collection a stale
`currentPage` of 5 survives `getPagedData` unclamped, violating
`1 ≤ currentPage ≤ max(totalPages, 1)` (here `totalPages = 0`). -/
theorem claim_C2_counterexample :
    ¬(1 ≤ (getPagedData (some []) stalePageState).2.currentPage
      ∧ (getPagedData (some []) stalePageState).2.currentPage
          ≤ max (getPagedData (some []) stalePageState).2.totalPages 1) := by
  decide

/-- Claim C2 as amended: after `getPagedData` on an actual collection the
lower bound `1 ≤ currentPage` always holds, and `currentPage ≤ totalPages`
holds whenever `totalPages > 0`; hence the claimed interval
`[1, max(totalPages, 1)]` is enforced for every non-empty collection (with
a positive page size), while on an empty collection a stale `currentPage`
above 1 is left unchanged rather than clamped. -/
theorem claim_C2_page_clamp (l : List Product) (st : PageState) :
    1 ≤ (getPagedData (some l) st).2.currentPage
    ∧ (0 < (getPagedData (some l) st).2.totalPages →
        (getPagedData (some l) st).2.currentPage
          ≤ (getPagedData (some l) st).2.totalPages)
    ∧ (0 < st.pageSize → l ≠ [] →
        (getPagedData (some l) st).2.currentPage
          ≤ max (getPagedData (some l) st).2.totalPages 1) := by
  have hcp : (getPagedData (some l) st).2.currentPage
      = (if (if ceilDiv l.length st.pageSize < st.currentPage
              ∧ 0 < ceilDiv l.length st.pageSize
            then ceilDiv l.length st.pageSize else st.currentPage) < 1 then 1
         else if ceilDiv l.length st.pageSize < st.currentPage
              ∧ 0 < ceilDiv l.length st.pageSize
            then ceilDiv l.length st.pageSize else st.currentPage) := rfl
  have htp : (getPagedData (some l) st).2.totalPages
      = ceilDiv l.length st.pageSize := rfl
  refine ⟨?_, ?_, ?_⟩
  · rw [hcp]
    split_ifs <;> omega
  · rw [hcp, htp]
    intro h
    split_ifs <;> omega
  · intro hps hl
    have hlen : l.length ≠ 0 := fun hc => hl (List.length_eq_zero.mp hc)
    have htp1 : 1 ≤ ceilDiv l.length st.pageSize := by
      rw [ceilDiv, Nat.one_le_div_iff hps]
      omega
    rw [hcp, htp, Nat.max_eq_left htp1]
    split_ifs <;> omega

/-- Witness for the amended claim C2: a one-product collection with the
stale page-5 state gets clamped back into range. -/
theorem claim_C2_witness :
    1 ≤ (getPagedData (some [prodA]) stalePageState).2.currentPage
    ∧ (getPagedData (some [prodA]) stalePageState).2.currentPage
        ≤ (getPagedData (some [prodA]) stalePageState).2.totalPages
    ∧ (getPagedData (some [prodA]) stalePageState).2.currentPage
        ≤ max (getPagedData (some [prodA]) stalePageState).2.totalPages 1 :=
  ⟨(claim_C2_page_clamp [prodA] stalePageState).1,
   (claim_C2_page_clamp [prodA] stalePageState).2.1 (by decide),
   (claim_C2_page_clamp [prodA] stalePageState).2.2 (by decide) (by decide)⟩

/-! ## Claim C6: page count and slicing -/

/-- Claim C6: `getPagedData` records `totalItems = collection.length` and
`totalPages = ceil(totalItems / pageSize)` (characterized as the least
number of pages whose capacity covers all items), and returns the slice of
indices `[(currentPage-1)*pageSize, currentPage*pageSize)` for the clamped
current page; concretely, 23 items with page size 10 give 3 pages, page 1
shows the items at indices [0,10) and page 3 the 3 items at [20,23). -/
theorem claim_C6_page_slices (l : List Product) (st : PageState)
    (hps : 0 < st.pageSize) :
    (getPagedData (some l) st).2.totalItems = l.length
    ∧ (getPagedData (some l) st).2.totalPages = ceilDiv l.length st.pageSize
    ∧ (∀ c : Nat, (getPagedData (some l) st).2.totalPages ≤ c
        ↔ l.length ≤ st.pageSize * c)
    ∧ (getPagedData (some l) st).1
        = (l.drop (((getPagedData (some l) st).2.currentPage - 1) * st.pageSize)).take
            st.pageSize
    ∧ (getPagedData (some catalog23) pageOneState).2.totalPages = 3
    ∧ (getPagedData (some catalog23) pageOneState).1 = catalog23.take 10
    ∧ (getPagedData (some catalog23) pageThreeState).1 = catalog23.drop 20
    ∧ (getPagedData (some catalog23) pageThreeState).1.length = 3 := by
  refine ⟨rfl, rfl, fun c => ?_, rfl, by decide, by decide, by decide, by decide⟩
  show ceilDiv l.length st.pageSize ≤ c ↔ _
  rw [ceilDiv, Nat.div_le_iff_le_mul_add_pred hps]
  omega

/-- Witness for claim C6, instantiated on the 23-item catalog with page
size 10. -/
theorem claim_C6_witness :
    (getPagedData (some catalog23) pageOneState).2.totalItems = catalog23.length
    ∧ (getPagedData (some catalog23) pageOneState).2.totalPages = 3 :=
  ⟨(claim_C6_page_slices catalog23 pageOneState (by decide)).1,
   (claim_C6_page_slices catalog23 pageOneState (by decide)).2.2.2.2.1⟩

/-! ## Claim C4: sorting by price -/

theorem priceLe_trans (d : String) (a b c : Product)
    (hab : priceCompare d a b ≤ 0) (hbc : priceCompare d b c ≤ 0) :
    priceCompare d a c ≤ 0 := by
  by_cases h : d = "asc" <;> simp [priceCompare, h] at hab hbc ⊢ <;> omega

theorem priceLe_total (d : String) (a b : Product) :
    priceCompare d a b ≤ 0 ∨ priceCompare d b a ≤ 0 := by
  by_cases h : d = "asc" <;> simp [priceCompare, h] <;> omega

/-- Claim C4: `sortByPrice` returns a sequence of the same length that is a
permutation of the input (the embedding is pure, so the input list itself is
never mutated), non-decreasing in `price || 0` for `'asc'` and
non-increasing for `'desc'` (an item with a missing price is kept and
compared as 0), and equal-price items keep their original relative order
(the filter on any price class is unchanged). -/
theorem claim_C4_sortByPrice (ps : List Product) (direction : String) :
    (sortByPrice (some ps) direction).length = ps.length
    ∧ (sortByPrice (some ps) direction).Perm ps
    ∧ (direction = "asc" →
        (sortByPrice (some ps) direction).Pairwise fun a b => jsPrice a ≤ jsPrice b)
    ∧ (direction = "desc" →
        (sortByPrice (some ps) direction).Pairwise fun a b => jsPrice b ≤ jsPrice a)
    ∧ (∀ v : Int,
        (sortByPrice (some ps) direction).filter (fun p => decide (jsPrice p = v))
          = ps.filter fun p => decide (jsPrice p = v)) := by
  have hsp : sortByPrice (some ps) direction
      = stableSort (fun a b => decide (priceCompare direction a b ≤ 0)) ps := rfl
  have htr : ∀ a b c : Product,
      decide (priceCompare direction a b ≤ 0) = true →
      decide (priceCompare direction b c ≤ 0) = true →
      decide (priceCompare direction a c ≤ 0) = true := fun a b c hab hbc =>
    decide_eq_true
      (priceLe_trans direction a b c (of_decide_eq_true hab) (of_decide_eq_true hbc))
  have hto : ∀ a b : Product,
      decide (priceCompare direction a b ≤ 0) = true
      ∨ decide (priceCompare direction b a ≤ 0) = true := by
    intro a b
    rcases priceLe_total direction a b with h | h
    · exact Or.inl (decide_eq_true h)
    · exact Or.inr (decide_eq_true h)
  refine ⟨hsp ▸ length_stableSort _ ps, hsp ▸ stableSort_perm _ ps, ?_, ?_, ?_⟩
  · intro hd
    subst hd
    rw [hsp]
    refine (sorted_stableSort htr hto ps).imp fun hab => ?_
    have h2 := of_decide_eq_true hab
    simp [priceCompare] at h2
    omega
  · intro hd
    subst hd
    rw [hsp]
    refine (sorted_stableSort htr hto ps).imp fun hab => ?_
    have h2 := of_decide_eq_true hab
    simp [priceCompare] at h2
    omega
  · intro v
    rw [hsp]
    refine filter_stableSort _ _ ?_ ps
    intro x y hx hy
    have hx2 := of_decide_eq_true hx
    have hy2 := of_decide_eq_true hy
    refine decide_eq_true ?_
    by_cases h : direction = "asc" <;> simp [priceCompare, h] <;> omega

/-- Witness for claim C4 on a concrete three-product list with a duplicated
price, sorted ascending. -/
theorem claim_C4_witness :
    (sortByPrice (some [prodA, prodB, prodD]) "asc").Perm [prodA, prodB, prodD]
    ∧ (sortByPrice (some [prodA, prodB, prodD]) "asc").Pairwise
        (fun a b => jsPrice a ≤ jsPrice b)
    ∧ (sortByPrice (some [prodA, prodB, prodD]) "asc").filter
          (fun p => decide (jsPrice p = 10))
        = [prodA, prodB, prodD].filter fun p => decide (jsPrice p = 10) :=
  ⟨(claim_C4_sortByPrice [prodA, prodB, prodD] "asc").2.1,
   (claim_C4_sortByPrice [prodA, prodB, prodD] "asc").2.2.1 rfl,
   (claim_C4_sortByPrice [prodA, prodB, prodD] "asc").2.2.2.2 10⟩

/-! ## Claims C5 and C9: sorting by name -/

theorem nameCompare_eq_of_lower_eq (d : String) {a b : Product}
    (h : jsToLower (titleOrEmpty a) = jsToLower (titleOrEmpty b)) :
    nameCompare d a b = .eq := by
  by_cases hd : d = "asc" <;> simp [nameCompare, hd, h, localeCompare_refl]

/-- Claim C5: the `'desc'` name comparator is the exact pointwise reverse
(`Ordering.swap`) of the `'asc'` comparator, and both directions sort
stably: for every value of the lowercased title, filtering the sorted
output on that title class gives exactly the input's class, in the original
order (so ties are never reversed, unlike a post-hoc reversal of the
tie-broken ascending output). -/
theorem claim_C5_name_directions (a b : Product) (ps : List Product) (v : String) :
    nameCompare "desc" a b = (nameCompare "asc" a b).swap
    ∧ (sortByName (some ps) "asc").filter
          (fun p => decide (jsToLower (titleOrEmpty p) = v))
        = ps.filter (fun p => decide (jsToLower (titleOrEmpty p) = v))
    ∧ (sortByName (some ps) "desc").filter
          (fun p => decide (jsToLower (titleOrEmpty p) = v))
        = ps.filter (fun p => decide (jsToLower (titleOrEmpty p) = v)) := by
  have hclass : ∀ d : String, ∀ x y : Product,
      decide (jsToLower (titleOrEmpty x) = v) = true →
      decide (jsToLower (titleOrEmpty y) = v) = true →
      decide (nameCompare d x y ≠ .gt) = true := by
    intro d x y hx hy
    have hx2 := of_decide_eq_true hx
    have hy2 := of_decide_eq_true hy
    refine decide_eq_true ?_
    rw [nameCompare_eq_of_lower_eq d (hx2.trans hy2.symm)]
    decide
  refine ⟨?_, ?_, ?_⟩
  · simp only [nameCompare, if_true]
    rw [if_neg (by decide)]
    exact localeCompare_swap _ _
  · have hsn : sortByName (some ps) "asc"
        = stableSort (fun a b => decide (nameCompare "asc" a b ≠ .gt)) ps := rfl
    rw [hsn]
    exact filter_stableSort _ _ (hclass "asc") ps
  · have hsn : sortByName (some ps) "desc"
        = stableSort (fun a b => decide (nameCompare "desc" a b ≠ .gt)) ps := rfl
    rw [hsn]
    exact filter_stableSort _ _ (hclass "desc") ps

/-- Claim C9: `sortByName` lowercases both titles before comparing, so
products whose titles differ only in letter case are ties for either
direction (the comparator returns `eq` both ways), and such tied products
keep their original relative order in the sorted output. -/
theorem claim_C9_case_insensitive (direction : String) (a b : Product)
    (ps : List Product)
    (h : jsToLower (titleOrEmpty a) = jsToLower (titleOrEmpty b)) :
    nameCompare direction a b = .eq
    ∧ nameCompare direction b a = .eq
    ∧ ([a, b].Sublist ps → [a, b].Sublist (sortByName (some ps) direction)) := by
  refine ⟨nameCompare_eq_of_lower_eq direction h,
    nameCompare_eq_of_lower_eq direction h.symm, ?_⟩
  intro hsub
  set p : Product → Bool :=
    fun q => decide (jsToLower (titleOrEmpty q) = jsToLower (titleOrEmpty a)) with hp
  have hpa : p a = true := by simp [hp]
  have hpb : p b = true := by simp [hp, h]
  have hfab : [a, b].filter p = [a, b] := by simp [hpa, hpb]
  have hclass : ∀ x y : Product, p x = true → p y = true →
      decide (nameCompare direction x y ≠ .gt) = true := by
    intro x y hx hy
    rw [hp] at hx hy
    have hx2 := of_decide_eq_true hx
    have hy2 := of_decide_eq_true hy
    refine decide_eq_true ?_
    rw [nameCompare_eq_of_lower_eq direction (hx2.trans hy2.symm)]
    decide
  have h1 : [a, b].Sublist (ps.filter p) := hfab ▸ hsub.filter p
  have h2 : (sortByName (some ps) direction).filter p = ps.filter p := by
    have hsn : sortByName (some ps) direction
        = stableSort (fun a b => decide (nameCompare direction a b ≠ .gt)) ps := rfl
    rw [hsn]
    exact filter_stableSort _ _ hclass ps
  rw [← h2] at h1
  exact h1.trans (List.filter_sublist _)

/-- Witness for claim C9: two products whose titles are case variants of
"shirt" are ties and stay in order when a third product is sorted in with
them. -/
theorem claim_C9_witness :
    jsToLower (titleOrEmpty prodA) = jsToLower (titleOrEmpty prodB)
    ∧ nameCompare "asc" prodA prodB = .eq
    ∧ [prodA, prodB].Sublist (sortByName (some [prodA, prodB, prodC]) "asc") :=
  ⟨by decide,
   (claim_C9_case_insensitive "asc" prodA prodB [prodA, prodB, prodC]
      (by decide)).1,
   (claim_C9_case_insensitive "asc" prodA prodB [prodA, prodB, prodC]
      (by decide)).2.2
     (List.Sublist.cons₂ prodA
       (List.Sublist.cons₂ prodB (List.Sublist.cons prodC List.Sublist.slnil)))⟩

/-! ## Claim C10: toggling never clears the sort field -/

theorem toggleSort_field (f : SortField) (s : SortState) :
    (toggleSort f s).field = some f := by
  rw [toggleSort]
  by_cases h : s.field = some f
  · rw [if_pos h]
    exact h
  · rw [if_neg h]

theorem foldl_toggleSort_field (fs : List SortField) :
    ∀ (st : SortState) (g : SortField), st.field = some g →
      ∃ g', (fs.foldl (fun acc f => toggleSort f acc) st).field = some g' := by
  induction fs with
  | nil => exact fun st g h => ⟨g, h⟩
  | cons f fs ih =>
    intro st g h
    rw [List.foldl_cons]
    exact ih (toggleSort f st) f (toggleSort_field f st)

/-- Claim C10: once `toggleSort` has run at least once, the sort field is
`'price'` or `'title'` after every further `toggleSort`, never back to the
unsorted `null`; only `clearSort` resets the field to `null`, and no UI
event routed by the dashboard ever clears an already-set field. -/
theorem claim_C10_toggle_invariant (s : SortState) (f : SortField)
    (fs : List SortField) (d : DashState) (e : Event) :
    ((fs.foldl (fun acc g => toggleSort g acc) (toggleSort f s)).field
        = some SortField.price
      ∨ (fs.foldl (fun acc g => toggleSort g acc) (toggleSort f s)).field
        = some SortField.title)
    ∧ (clearSort s).field = none
    ∧ (d.sortState.field ≠ none → (handleEvent d e).sortState.field ≠ none) := by
  refine ⟨?_, rfl, ?_⟩
  · rcases foldl_toggleSort_field fs (toggleSort f s) f (toggleSort_field f s) with
      ⟨g', hg⟩
    cases g'
    · exact Or.inl hg
    · exact Or.inr hg
  · intro h
    cases e with
    | searchInput t => exact h
    | sortToggle g =>
      intro hc
      rw [show (handleEvent d (.sortToggle g)).sortState
            = toggleSort g d.sortState from rfl, toggleSort_field] at hc
      exact Option.noConfusion hc
    | pageSelect n =>
      rcases hr : goToPage n d.pageState with ⟨pst, fired⟩
      simp only [handleEvent, hr]
      cases fired
      · exact h
      · exact h
    | pageSizeSelect n =>
      rcases hr : changePageSize n d.pageState with ⟨pst, fired⟩
      simp only [handleEvent, hr]
      cases fired
      · exact h
      · exact h

/-- Witness for claim C10: on a dashboard with a price sort already
selected, a search event leaves the sort field set. -/
theorem claim_C10_witness :
    (handleEvent dashSorted (.searchInput "a")).sortState.field ≠ none :=
  (claim_C10_toggle_invariant { field := none, direction := "asc" }
    SortField.price [] dashSorted (.searchInput "a")).2.2 (by decide)

/-! ## Claim C1: slice-only page changes match a full recompute -/

theorem updateDisplay_filteredProducts (s : DashState) :
    (updateDisplay s).filteredProducts = s.filteredProducts := rfl

theorem applyFilters_pageState_indep (s : DashState) (pst : PageState) :
    (applyFilters { s with pageState := pst }).filteredProducts
      = (applyFilters s).filteredProducts := rfl

/-- On a consistent dashboard state — one whose stored filtered/sorted
collection is exactly what a recompute from the raw products, search term
and sort state would produce — re-slicing alone agrees with the full
filter, sort and paginate chain. -/
theorem updateDisplay_eq_applyFilters {s : DashState}
    (h : s.filteredProducts = (applyFilters s).filteredProducts) :
    updateDisplay s = applyFilters s := by
  have h1 : applyFilters s
      = updateDisplay { s with filteredProducts := (applyFilters s).filteredProducts } :=
    rfl
  rw [h1, ← h]

/-- Claim C1: on a consistent state (the stored filtered/sorted collection
matches the current raw products, search term and sort state, as it does
after any `applyFilters` run), handling a page-number change by
`updateDisplay` alone — a slice of the stored collection — produces the
same result as re-running the whole `applyFilters` chain; and the event
routing sends a search change, a sort toggle and a page-size change through
`applyFilters`, but a page-number change through `updateDisplay` only. -/
theorem claim_C1_slice_equals_recompute (s : DashState) (t : String)
    (f : SortField) (n m : Nat)
    (h : s.filteredProducts = (applyFilters s).filteredProducts) :
    updateDisplay s = applyFilters s
    ∧ handleEvent s (.searchInput t) = applyFilters { s with searchTerm := t.trim }
    ∧ handleEvent s (.sortToggle f)
        = applyFilters { s with sortState := toggleSort f s.sortState }
    ∧ (1 ≤ n → n ≤ s.pageState.totalPages →
        handleEvent s (.pageSelect n)
            = updateDisplay { s with pageState := { s.pageState with currentPage := n } }
          ∧ handleEvent s (.pageSelect n)
            = applyFilters { s with pageState := { s.pageState with currentPage := n } })
    ∧ ((m = 5 ∨ m = 10 ∨ m = 20) →
        handleEvent s (.pageSizeSelect m)
          = applyFilters
              { s with pageState := { s.pageState with pageSize := m, currentPage := 1 } }) := by
  refine ⟨updateDisplay_eq_applyFilters h, rfl, rfl, ?_, ?_⟩
  · intro h1 h2
    have hgo : goToPage n s.pageState = ({ s.pageState with currentPage := n }, true) := by
      rw [goToPage, if_neg (by omega)]
    have hroute : handleEvent s (.pageSelect n)
        = updateDisplay { s with pageState := { s.pageState with currentPage := n } } := by
      simp [handleEvent, hgo]
    refine ⟨hroute, ?_⟩
    rw [hroute]
    exact updateDisplay_eq_applyFilters
      (h.trans (applyFilters_pageState_indep s _).symm)
  · intro hm
    have hcs : changePageSize m s.pageState
        = ({ s.pageState with pageSize := m, currentPage := 1 }, true) := by
      rw [changePageSize, if_pos hm]
    simp [handleEvent, hcs]

/-- Witness for claim C1: on the initialized three-product dashboard,
selecting page 1 (the only page) through the event routing matches a full
recompute, and selecting page size 5 routes through `applyFilters`. -/
theorem claim_C1_witness :
    handleEvent dash1 (.pageSelect 1)
        = applyFilters { dash1 with pageState := { dash1.pageState with currentPage := 1 } }
    ∧ handleEvent dash1 (.pageSizeSelect 5)
        = applyFilters
            { dash1 with pageState := { dash1.pageState with pageSize := 5, currentPage := 1 } } :=
  ⟨((claim_C1_slice_equals_recompute dash1 "a" SortField.price 1 5
        (by decide)).2.2.2.1 (by decide) (by decide)).2,
   (claim_C1_slice_equals_recompute dash1 "a" SortField.price 1 5
        (by decide)).2.2.2.2 (by decide)⟩
